import Mathlib

/-!
Verification of the vloggo-go file-backed logger against its specification.

The Go sources are shallowly embedded: pure formatting functions become Lean
functions over an explicit `DateTime`; the `FileService` state machine becomes
explicit state passing over a `FileService` structure, with operating-system
effects (directory creation, appends, directory listing, file removal) supplied
by a `World` of outcome functions and recorded in an effect trace; the
non-reentrant `sync.Mutex` is modelled by a held-bit, where acquiring a held
mutex blocks the call forever. JSON serialisation (`encoding/json`, an external
library) is modelled by an abstract marshal result passed in.
-/

/-- A wall-clock instant, standing for Go's `time.Time`. -/
structure DateTime where
  year : Nat
  month : Nat
  day : Nat
  hour : Nat
  minute : Nat
  second : Nat
deriving DecidableEq, Repr

/-- Two-digit zero padding, as Go's reference-date verbs `02`, `01`, `15`, `04`, `05`. -/
def pad2 (n : Nat) : String :=
  if n < 10 then "0" ++ toString n else toString n

/-- Four-digit zero padding, as Go's reference-date verb `2006`. -/
def pad4 (n : Nat) : String :=
  if n < 10 then "000" ++ toString n
  else if n < 100 then "00" ++ toString n
  else if n < 1000 then "0" ++ toString n
  else toString n

/-- format.go `Date`: Go layout `02/01/2006 15:04:05` applied to a given instant. -/
def goDateStamp (t : DateTime) : String :=
  pad2 t.day ++ "/" ++ pad2 t.month ++ "/" ++ pad4 t.year ++ " " ++
    pad2 t.hour ++ ":" ++ pad2 t.minute ++ ":" ++ pad2 t.second

/-- Go layout `2006-01-02`, used by `Filename` and `JSONFilename`. -/
def goFileStamp (t : DateTime) : String :=
  pad4 t.year ++ "-" ++ pad2 t.month ++ "-" ++ pad2 t.day

/-- types.go `LogEntry`. `Level` is the underlying string of `types.LogLevel`. -/
structure LogEntry where
  Level : String
  Code : Int
  Caller : String
  Message : String
deriving DecidableEq, Repr

/-- format.go `FormatService`: the only state is the client name. -/
structure FormatService where
  Client : String
deriving DecidableEq, Repr

/-- format.go `NewFormatService`: an empty client name falls back to `"VLoggo"`. -/
def NewFormatService (client : String) : FormatService :=
  if client = "" then { Client := "VLoggo" } else { Client := client }

/-- Go `fmt`'s wrong-verb output for `%s` applied to an `int` value `c`:
the verb does not match the operand type, so `fmt` prints `%!s(int=<c>)`. -/
def goBadVerbS (c : Int) : String :=
  "%!s(int=" ++ toString c ++ ")"

/-- format.go `FormatService.Line` (file lines 199-210): the source formats
`entry.Code`, an `int`, with the `%s` verb, so the code slot renders as
`fmt`'s wrong-verb text, not as the plain decimal. -/
def FormatService.Line (fs : FormatService) (now : DateTime) (entry : LogEntry) : String :=
  "[" ++ fs.Client ++ "] [" ++ goDateStamp now ++ "] [" ++ entry.Level ++ "] [" ++
    goBadVerbS entry.Code ++ "] [" ++ entry.Caller ++ "] : " ++ entry.Message ++ "\n"

/-- format.go `FormatService.JSONLine` (file lines 212-233). The call to
`json.Marshal` on the composed record is external library code, modelled by the
abstract `marshal` result: `.ok bytes` stands for a successful serialisation,
`.error msg` for a failed one, in which case the source returns the inline
fallback line instead of raising. -/
def FormatService.JSONLine (fs : FormatService) (now : DateTime)
    (marshal : Except String String) : String :=
  match marshal with
  | .error err =>
      "[VLoggo] > [" ++ fs.Client ++ "] [" ++ goDateStamp now ++
        "] [ERROR] : failed to serialize log > " ++ err
  | .ok bytes => bytes ++ "\n"

/-- format.go `Separator`: `strings.Repeat("_", 50)` framed by newlines, then
the INIT line. -/
def FormatService.Separator (fs : FormatService) (now : DateTime) : String :=
  ("\n" ++ String.mk (List.replicate 50 ('_')) ++ "\n\n") ++
    "[" ++ fs.Client ++ "] [" ++ goDateStamp now ++
    "] [INIT] : VLoggo initialized successfully \n"

/-- format.go `JSONSeparator`, with the `json.Marshal` call on the fixed INIT
record modelled by the abstract `marshal` result. -/
def FormatService.JSONSeparator (fs : FormatService) (now : DateTime)
    (marshal : Except String String) : String :=
  match marshal with
  | .error err =>
      "[VLoggo] > [" ++ fs.Client ++ "] [" ++ goDateStamp now ++
        "] [ERROR] : failed to serialize init log > " ++ err
  | .ok bytes => bytes ++ "\n"

/-- format.go `Filename`: `log-<YYYY-MM-DD>.txt`. -/
def txtLogFilename (now : DateTime) : String :=
  "log-" ++ goFileStamp now ++ ".txt"

/-- format.go `JSONFilename`: `log-<YYYY-MM-DD>.jsonl`. -/
def jsonLogFilename (now : DateTime) : String :=
  "log-" ++ goFileStamp now ++ ".jsonl"

/-- The part of config.go `VLoggoConfig` that file.go reads: client name, the
JSON and Debug flags, the two sink directories, and the two retention counts
(`Filecount.Txt` / `Filecount.Json`, Go `int`, so possibly negative). -/
structure Config where
  Client : String
  Json : Bool
  Debug : Bool
  DirTxt : String
  DirJson : String
  KeepTxt : Int
  KeepJson : Int
deriving DecidableEq, Repr

/-- file.go `FileService` (lines 17-26). The `sync.Mutex` field is modelled by
`muHeld`: Go's mutex is not reentrant, so acquiring it while `muHeld = true`
blocks the goroutine forever. -/
structure FileService where
  cfg : Config
  txtFilename : String
  jsonFilename : String
  currentDay : Nat
  initialized : Bool
  muHeld : Bool
deriving DecidableEq, Repr

/-- `fs.mu.Lock()`: succeeds only when the mutex is free; a second acquisition
by the same call has no success branch (Go `sync.Mutex` is not reentrant). -/
def lockAcquire (fs : FileService) : Option FileService :=
  if fs.muHeld then none else some { fs with muHeld := true }

/-- `fs.mu.Unlock()` (run by `defer`). -/
def lockRelease (fs : FileService) : FileService :=
  { fs with muHeld := false }

/-- A directory entry as `os.ReadDir` + `DirEntry.Info()` expose it: the name,
whether `Info()` succeeds, and the modification time reported on success. -/
structure DirEntry where
  name : String
  infoOk : Bool
  mtime : Int
deriving DecidableEq, Repr

/-- file.go's local `fileInfo` inside `rotateTxt` / `rotateJson`: full path and
modification time. -/
structure FileInfo where
  path : String
  mtime : Int
deriving DecidableEq, Repr

/-- One operating-system side effect performed by the file service. -/
inductive Eff where
  | mkdir (dir : String)
  | append (file : String) (content : String)
  | readDir (dir : String)
  | remove (path : String)
deriving DecidableEq, Repr

/-- Outcome of a Go function body: it either returns a value or panics. -/
inductive GoResult (α : Type) where
  | panicked
  | ok (val : α)
deriving DecidableEq, Repr

/-- Outcome of a call under the mutex model: it can also block forever on a
lock acquisition. -/
inductive Exec (α : Type) where
  | blocked
  | panicked
  | ret (val : α)
deriving DecidableEq, Repr

deriving instance DecidableEq for Except

/-- The operating-system environment of one call: the current day-of-month
(`time.Now().Day()`), the current instant, and the outcome of each external
operation. `mkdirErr` / `appendErr` / `rmErr` give `some msg` when the call
fails, `readDir` lists a directory or fails, and `marshalInit` is the result of
`json.Marshal` on the INIT separator record. -/
structure World where
  today : Nat
  now : DateTime
  mkdirErr : String → Option String
  appendErr : String → Option String
  readDir : String → Except String (List DirEntry)
  rmErr : String → Option String
  marshalInit : Except String String

/-- Go `filepath.Ext`: the suffix beginning at the final dot, empty when the
name has no dot (names from `os.ReadDir` contain no slash). -/
def goExt (s : String) : String :=
  if s.data.contains ('.') then
    String.mk (('.') :: (s.data.reverse.takeWhile (fun c => c ≠ ('.'))).reverse)
  else ""

/-- Go `filepath.Join(dir, name)` for a clean nonempty directory and a simple
file name. -/
def pathJoin (dir name : String) : String :=
  dir ++ "/" ++ name

/-- Descending-modification-time order used by the sweeps: `sort.Slice` with
`less i j = mtime(i).After(mtime(j))` yields a list sorted by `mtimeGE`. -/
def mtimeGE (a b : FileInfo) : Prop :=
  b.mtime ≤ a.mtime

instance : DecidableRel mtimeGE :=
  fun a b => inferInstanceAs (Decidable (b.mtime ≤ a.mtime))

instance : IsTotal FileInfo mtimeGE :=
  ⟨fun a b => le_total b.mtime a.mtime⟩

instance : IsTrans FileInfo mtimeGE :=
  ⟨fun _ _ _ h1 h2 => le_trans h2 h1⟩

/-- The collection loop of `rotateTxt` / `rotateJson` (file.go lines 185-198):
keep entries with the matching extension whose `Info()` succeeds, skipping the
rest, and record full path plus modification time. -/
def collectLogFiles (dir ext : String) (files : List DirEntry) : List FileInfo :=
  (files.filter (fun e => goExt e.name == ext && e.infoOk)).map
    (fun e => { path := pathJoin dir e.name, mtime := e.mtime })

/-- `sort.Slice(logFiles, ...mtime After...)`: sorted newest-first. Go's sort
is unstable; ties are broken arbitrarily there and deterministically here. -/
def sortFiles (xs : List FileInfo) : List FileInfo :=
  xs.insertionSort mtimeGE

/-- The deletion-set computation (file.go lines 204-205): when the count
exceeds the keep bound, Go slices `logFiles[keep:]`, which panics (`none`) when
`keep` is negative; otherwise nothing is deleted. -/
def filesToDelete (keep : Int) (logFiles : List FileInfo) : Option (List FileInfo) :=
  if (logFiles.length : Int) > keep then
    if 0 ≤ keep ∧ keep ≤ (logFiles.length : Int) then some (logFiles.drop keep.toNat)
    else none
  else some []

/-- The effect trace of a sweep: one directory listing, then one removal
attempt per file selected for deletion (attempted even when `rmErr` reports a
failure — the source only prints the error and continues). -/
def sweepTrace (dir : String) (del : List FileInfo) : List Eff :=
  Eff.readDir dir :: del.map (fun f => Eff.remove f.path)

/-- file.go `rotateTxt` (lines 171-218): list the text directory, collect
`.txt` entries, sort newest-first, delete everything beyond the keep bound.
Deletion failures are printed and skipped, so the function returns `nil`
whenever the listing succeeded and the slicing did not panic. -/
def rotateTxt (fs : FileService) (w : World) : GoResult (Except String Unit) × List Eff :=
  match w.readDir fs.cfg.DirTxt with
  | .error e =>
      (.ok (.error ("error reading txt directory > " ++ e)), [Eff.readDir fs.cfg.DirTxt])
  | .ok files =>
      let logFiles := sortFiles (collectLogFiles fs.cfg.DirTxt ".txt" files)
      match filesToDelete fs.cfg.KeepTxt logFiles with
      | none => (.panicked, [Eff.readDir fs.cfg.DirTxt])
      | some del => (.ok (.ok ()), sweepTrace fs.cfg.DirTxt del)

/-- file.go `rotateJson` (lines 220-266): identical to `rotateTxt` with the
JSON directory, the `.jsonl` extension, the JSON keep bound, and a listing
error message that uses a colon. -/
def rotateJson (fs : FileService) (w : World) : GoResult (Except String Unit) × List Eff :=
  match w.readDir fs.cfg.DirJson with
  | .error e =>
      (.ok (.error ("error reading json directory: " ++ e)), [Eff.readDir fs.cfg.DirJson])
  | .ok files =>
      let logFiles := sortFiles (collectLogFiles fs.cfg.DirJson ".jsonl" files)
      match filesToDelete fs.cfg.KeepJson logFiles with
      | none => (.panicked, [Eff.readDir fs.cfg.DirJson])
      | some del => (.ok (.ok ()), sweepTrace fs.cfg.DirJson del)

/-- file.go `rotate` (lines 156-170): sweep text always, JSON only when
enabled; the first error or panic propagates. -/
def FileService.rotate (fs : FileService) (w : World) : GoResult (Except String Unit) × List Eff :=
  match rotateTxt fs w with
  | (.panicked, tr) => (.panicked, tr)
  | (.ok (.error e), tr) => (.ok (.error e), tr)
  | (.ok (.ok _), tr) =>
      if fs.cfg.Json then
        match rotateJson fs w with
        | (.panicked, tr2) => (.panicked, tr ++ tr2)
        | (.ok r, tr2) => (.ok r, tr ++ tr2)
      else (.ok (.ok ()), tr)

/-- The tail of `verify` after the separators (file.go lines 147-153): mark
initialized, then run the retention sweeps, wrapping a sweep error. -/
def verifyCleanup (fs : FileService) (w : World) (tr : List Eff) :
    GoResult (FileService × Except String Unit) × List Eff :=
  match fs.rotate w with
  | (.panicked, tr2) => (.panicked, tr ++ tr2)
  | (.ok (.error e), tr2) => (.ok (fs, .error ("vloggo cleanup failed > " ++ e)), tr ++ tr2)
  | (.ok (.ok _), tr2) => (.ok (fs, .ok ()), tr ++ tr2)

/-- The body of file.go `verify` (lines 105-153), after its own mutex
acquisition: compare today against the session day; on a change, record the new
day, recreate the directories, recompute the filenames, append the separators
(stopping with an error on the first failing step, any state mutated so far
kept), mark initialized, and run the retention sweeps. -/
def verifyBody (fs : FileService) (w : World) :
    GoResult (FileService × Except String Unit) × List Eff :=
  if w.today = fs.currentDay then (.ok (fs, .ok ()), [])
  else
    let fs1 := { fs with currentDay := w.today }
    let txtDir := fs1.cfg.DirTxt
    match w.mkdirErr txtDir with
    | some e => (.ok (fs1, .error ("error creating txt directory > " ++ e)), [Eff.mkdir txtDir])
    | none =>
      let fs2 := { fs1 with txtFilename := pathJoin txtDir (txtLogFilename w.now) }
      let sep := (NewFormatService fs2.cfg.Client).Separator w.now
      match w.appendErr fs2.txtFilename with
      | some e =>
          (.ok (fs2, .error ("error writing txt separator > " ++ e)),
            [Eff.mkdir txtDir, Eff.append fs2.txtFilename sep])
      | none =>
        let tr0 := [Eff.mkdir txtDir, Eff.append fs2.txtFilename sep]
        if fs2.cfg.Json then
          let jsonDir := fs2.cfg.DirJson
          match w.mkdirErr jsonDir with
          | some e =>
              (.ok (fs2, .error ("error creating json directory > " ++ e)),
                tr0 ++ [Eff.mkdir jsonDir])
          | none =>
            let fs3 := { fs2 with jsonFilename := pathJoin jsonDir (jsonLogFilename w.now) }
            let jsep := (NewFormatService fs3.cfg.Client).JSONSeparator w.now w.marshalInit
            match w.appendErr fs3.jsonFilename with
            | some e =>
                (.ok (fs3, .error ("error writing json separator > " ++ e)),
                  tr0 ++ [Eff.mkdir jsonDir, Eff.append fs3.jsonFilename jsep])
            | none =>
                verifyCleanup { fs3 with initialized := true } w
                  (tr0 ++ [Eff.mkdir jsonDir, Eff.append fs3.jsonFilename jsep])
        else
          verifyCleanup { fs2 with initialized := true } w tr0

/-- The two appends at the end of `Write` (file.go lines 284-294): append the
text line; on failure return that sink's error at once, otherwise append the
first JSON line when JSON output is enabled and one was supplied. -/
def writeAppends (fs : FileService) (w : World) (line : String) (jsonLine : List String) :
    (FileService × Except String Unit) × List Eff :=
  match w.appendErr fs.txtFilename with
  | some e =>
      ((fs, .error ("error writing txt > " ++ e)), [Eff.append fs.txtFilename line])
  | none =>
      if fs.cfg.Json ∧ jsonLine ≠ [] then
        match w.appendErr fs.jsonFilename with
        | some e =>
            ((fs, .error ("error writing json > " ++ e)),
              [Eff.append fs.txtFilename line, Eff.append fs.jsonFilename (jsonLine.headD "")])
        | none =>
            ((fs, .ok ()),
              [Eff.append fs.txtFilename line, Eff.append fs.jsonFilename (jsonLine.headD "")])
      else ((fs, .ok ()), [Eff.append fs.txtFilename line])

/-- `Write` after its initialization precondition (file.go lines 276-294), with
the mutex operations erased: run the body of `verify`, print and otherwise
ignore its error, then perform the appends. The boolean in the result records
whether the rotation branch of `verify` was entered (`today` differed from the
session day). -/
def writeAfterPre (fs : FileService) (w : World) (line : String) (jsonLine : List String) :
    GoResult (FileService × Except String Unit × Bool) × List Eff :=
  match verifyBody fs w with
  | (.panicked, tr) => (.panicked, tr)
  | (.ok (fs1, _vErr), tr) =>
      let rot := w.today != fs.currentDay
      match writeAppends fs1 w line jsonLine with
      | ((fs2, res), tr2) => (.ok (fs2, res, rot), tr ++ tr2)

/-- file.go `Write` (lines 268-295) with the mutex modelled faithfully: `Write`
acquires `fs.mu` (line 269), checks the precondition, and then calls
`fs.verify()` (line 276), whose first action is to acquire `fs.mu` again
(line 107). The second acquisition of the already-held non-reentrant mutex
blocks the call forever. -/
def writeLocked (fs : FileService) (w : World) (line : String) (jsonLine : List String) :
    Exec (FileService × Except String Unit × Bool) × List Eff :=
  match lockAcquire fs with
  | none => (.blocked, [])
  | some fs1 =>
      if fs1.initialized = false then
        (.ret (lockRelease fs1, .error "file service not initialized", false), [])
      else
        match lockAcquire fs1 with
        | none => (.blocked, [])
        | some fs2 =>
            match writeAfterPre (lockRelease fs2) w line jsonLine with
            | (.panicked, tr) => (.panicked, tr)
            | (.ok (fs3, res, rot), tr) => (.ret (lockRelease fs3, res, rot), tr)

/-- One `Write` call: its environment and arguments. -/
structure WCall where
  w : World
  line : String
  jsonLine : List String

/-- A sequence of `Write` calls on one manager, counting the calls that
performed a rotation; a blocked or panicked call stops the sequence. -/
def runWrites : FileService → List WCall → Exec FileService × Nat
  | fs, [] => (.ret fs, 0)
  | fs, c :: rest =>
      match writeLocked fs c.w c.line c.jsonLine with
      | (.blocked, _) => (.blocked, 0)
      | (.panicked, _) => (.panicked, 0)
      | (.ret (fs1, _, rot), _) =>
          match runWrites fs1 rest with
          | (e, n) => (e, (if rot then 1 else 0) + n)

/-- main.go `VLoggo`: a logger instance. The `file` and `format` pointers can
be nil, modelled by `Option`. -/
structure VLoggo where
  cfg : Config
  file : Option FileService
  format : Option FormatService

/-- The instance registry `instances : map[string]*VLoggo`, as an association
list keyed by client name. -/
def Registry : Type :=
  List (String × VLoggo)

/-- main.go `Clone` (lines 104-158): when the base instance exists and the
target client name is not yet registered, register and return a fresh instance
built as `&VLoggo(cfg: cloneCfg)` — the `file` and `format` fields are never
set, so they stay nil. The config is the base's with the client name replaced,
then the options applied; the second existence check (performed in the source
after taking the write lock) sees the same registry in this sequential model. -/
def Clone (reg : Registry) (base client : String) (opts : List (Config → Config)) :
    Option VLoggo × Registry :=
  match List.lookup base reg with
  | none => (none, reg)
  | some baseInst =>
      match List.lookup client reg with
      | some existing => (some existing, reg)
      | none =>
          let cloneCfg := opts.foldl (fun c o => o c) { baseInst.cfg with Client := client }
          match List.lookup client reg with
          | some existing => (some existing, reg)
          | none =>
              let newInst : VLoggo := { cfg := cloneCfg, file := none, format := none }
              (some newInst, (client, newInst) :: reg)

/-- Outcome of one logging call (main.go `log`): a nil-pointer dereference
panic, a call that never returns because the underlying `Write` blocked or
panicked, or a completed call. -/
inductive LogOutcome where
  | nilPanic
  | stuck
  | done
deriving DecidableEq, Repr

/-- main.go `VLoggo.log` (lines 171-202): build the entry, format the text
line — `v.format.Line` on a nil `format` dereferences nil reading `fs.Client`
and panics — then, with JSON enabled, also the JSON line, and call
`v.file.Write` — which on a nil `file` dereferences nil at `fs.mu.Lock()` and
panics. A `Write` error is printed and otherwise ignored. The caller string
(`services.Caller(3)`, runtime introspection) and the marshal result are
parameters. -/
def VLoggo.logM (v : VLoggo) (w : World) (level : String) (code : Int)
    (message caller : String) (marshal : Except String String) : LogOutcome :=
  match v.format with
  | none => .nilPanic
  | some f =>
      let entry : LogEntry := { Level := level, Code := code, Caller := caller, Message := message }
      let line := f.Line w.now entry
      if v.cfg.Json then
        let jsonLine := f.JSONLine w.now marshal
        match v.file with
        | none => .nilPanic
        | some fsvc =>
            match writeLocked fsvc w line [jsonLine] with
            | (.blocked, _) => .stuck
            | (.panicked, _) => .stuck
            | (.ret _, _) => .done
      else
        match v.file with
        | none => .nilPanic
        | some fsvc =>
            match writeLocked fsvc w line [] with
            | (.blocked, _) => .stuck
            | (.panicked, _) => .stuck
            | (.ret _, _) => .done

/-- main.go `Info`: `v.log("INFO", code, message)`. -/
def VLoggo.Info (v : VLoggo) (w : World) (code : Int) (message caller : String)
    (marshal : Except String String) : LogOutcome :=
  v.logM w "INFO" code message caller marshal

/-- main.go `Warn`. -/
def VLoggo.Warn (v : VLoggo) (w : World) (code : Int) (message caller : String)
    (marshal : Except String String) : LogOutcome :=
  v.logM w "WARN" code message caller marshal

/-- main.go `Debug`. -/
def VLoggo.Debug (v : VLoggo) (w : World) (code : Int) (message caller : String)
    (marshal : Except String String) : LogOutcome :=
  v.logM w "DEBUG" code message caller marshal

/-- main.go `Error`. -/
def VLoggo.Error (v : VLoggo) (w : World) (code : Int) (message caller : String)
    (marshal : Except String String) : LogOutcome :=
  v.logM w "ERROR" code message caller marshal

/-- main.go `Fatal`: logs, then calls `os.Exit(1)` — unreachable when the log
call itself panics. -/
def VLoggo.Fatal (v : VLoggo) (w : World) (code : Int) (message caller : String)
    (marshal : Except String String) : LogOutcome :=
  v.logM w "FATAL" code message caller marshal


/-- A benign call environment reused by concrete witnesses: day 1, no failing
operating-system call, an empty directory listing, marshalling succeeds. -/
def wBase : World where
  today := 1
  now := ⟨2024, 5, 1, 12, 30, 45⟩
  mkdirErr := fun _ => none
  appendErr := fun _ => none
  readDir := fun _ => .ok []
  rmErr := fun _ => none
  marshalInit := .ok "init-record"

/-- A concrete configuration with JSON output enabled. -/
def cfgW : Config where
  Client := "api"
  Json := true
  Debug := false
  DirTxt := "t"
  DirJson := "j"
  KeepTxt := 31
  KeepJson := 31

/-- The C5 failing input: a plain entry with status code 404. -/
def entryC5 : LogEntry where
  Level := "ERROR"
  Code := 404
  Caller := "caller.go:10"
  Message := "not found"

/-- The concrete uninitialized manager used by the C7 witness. -/
def fsC7 : FileService where
  cfg := cfgW
  txtFilename := "t/log-2024-05-01.txt"
  jsonFilename := "j/log-2024-05-01.jsonl"
  currentDay := 1
  initialized := false
  muHeld := false

/-- The concrete initialized manager used by the C2, C3 and C1 fixtures. -/
def fsInit : FileService where
  cfg := cfgW
  txtFilename := "t/log-2024-05-01.txt"
  jsonFilename := "j/log-2024-05-01.jsonl"
  currentDay := 1
  initialized := true
  muHeld := false

/-- The C3 witness environment: the clock has advanced to day 2 while the
session still records day 1. -/
def wDay2 : World :=
  { wBase with today := 2 }

/-- The C8 witness world: one readable `.txt` file in the text directory. -/
def wC8 : World :=
  { wBase with readDir := fun d =>
      if d = "t" then .ok [{ name := "a.txt", infoOk := true, mtime := 5 }] else .ok [] }

/-- The C8 witness manager: a keep count of `-1`. -/
def fsC8 : FileService :=
  { fsInit with cfg := { cfgW with KeepTxt := -1 } }

/-- The C9 witness registry: one registered base instance. -/
def baseInstW : VLoggo where
  cfg := cfgW
  file := some fsInit
  format := some (NewFormatService "api")

/-- The C1 counterexample world: appending to the current text file fails with
"disk full"; every other operation succeeds. -/
def wTxtFail : World :=
  { wBase with appendErr := fun p =>
      if p = "t/log-2024-05-01.txt" then some "disk full" else none }

/-- The directory entries carrying the swept extension, regardless of whether
their metadata is readable — the files the retention bound speaks about. -/
def matchingEntries (ext : String) (files : List DirEntry) : List DirEntry :=
  files.filter (fun e => goExt e.name == ext)

/-- The paths whose `os.Remove` call succeeded during a sweep that attempted to
delete `del`. -/
def deletedPaths (w : World) (del : List FileInfo) : List String :=
  (del.filter (fun f => (w.rmErr f.path).isNone)).map (fun f => f.path)

/-- The `fileInfo` record a readable directory entry contributes to a sweep. -/
def entryFileInfo (dir : String) (e : DirEntry) : FileInfo :=
  { path := pathJoin dir e.name, mtime := e.mtime }

/-- Whether a collected file is absent from a list of successfully deleted
paths, i.e. still present after the sweep. -/
def keptFile (dp : List String) (f : FileInfo) : Bool :=
  !(dp.contains f.path)

/-- The matching-extension entries still present in the directory after a sweep
that attempted to delete `del`: those whose path was not successfully removed. -/
def survivors (dir ext : String) (files : List DirEntry) (w : World)
    (del : List FileInfo) : List DirEntry :=
  (matchingEntries ext files).filter
    (fun e => keptFile (deletedPaths w del) (entryFileInfo dir e))

/-- Three readable `.txt` entries with distinct modification times, newest
first. -/
def entA : DirEntry where
  name := "a.txt"
  infoOk := true
  mtime := 3

/-- Middle entry of the three-file directory. -/
def entB : DirEntry where
  name := "b.txt"
  infoOk := true
  mtime := 2

/-- Oldest entry of the three-file directory. -/
def entC : DirEntry where
  name := "c.txt"
  infoOk := true
  mtime := 1

/-- The C4 counterexample world: three readable `.txt` files under `d`;
removing `d/b.txt` fails with a permission error, every other removal
succeeds. -/
def wC4 : World :=
  { wBase with
      readDir := fun d => if d = "d" then .ok [entA, entB, entC] else .ok [],
      rmErr := fun p => if p = "d/b.txt" then some "permission denied" else none }

/-- The C4 counterexample manager: text directory `d`, keep one file. -/
def fsC4 : FileService :=
  { fsInit with cfg := { cfgW with DirTxt := "d", KeepTxt := 1 } }

/-- The C4 witness world: the same three files under `t`, with every removal
succeeding. -/
def wC4ok : World :=
  { wBase with readDir := fun d => if d = "t" then .ok [entA, entB, entC] else .ok [] }

/-- The C4 witness manager: keep one file. -/
def fsC4ok : FileService :=
  { fsInit with cfg := { cfgW with KeepTxt := 1 } }

/-- C10: constructing a formatter with the empty client name yields client
`"VLoggo"`, and every line it produces starts with the `[VLoggo] [` client tag;
a non-empty client name is kept unchanged. -/
theorem C10_format_client_default :
    ((NewFormatService "").Client = "VLoggo") ∧
    (∀ c : String, c ≠ "" → (NewFormatService c).Client = c) ∧
    (∀ (now : DateTime) (entry : LogEntry), ∃ rest : String,
      (NewFormatService "").Line now entry = "[VLoggo] [" ++ rest) := by
  refine ⟨rfl, fun c hc => by simp [NewFormatService, hc], fun now entry => ?_⟩
  refine ⟨goDateStamp now ++ "] [" ++ entry.Level ++ "] [" ++ goBadVerbS entry.Code ++
    "] [" ++ entry.Caller ++ "] : " ++ entry.Message ++ "\n", ?_⟩
  simp only [FormatService.Line]
  rw [show (NewFormatService "").Client = "VLoggo" from rfl]
  rw [show ("[" ++ "VLoggo" : String) = "[VLoggo" from by decide]
  rw [show ("[VLoggo" ++ "] [" : String) = "[VLoggo] [" from by decide]
  simp [String.append_assoc]

/-- C10 witness: the theorem applied to the empty and to a concrete non-empty
client name. -/
theorem C10_format_client_default_witness :
    (NewFormatService "svc").Client = "svc" ∧ (NewFormatService "").Client = "VLoggo" :=
  ⟨C10_format_client_default.2.1 "svc" (by decide), C10_format_client_default.1⟩

/-- C5: the text line renders the code slot with the mismatched `%s` verb, so
code 404 appears as `[%!s(int=404)]` and not as the `[404]` the specification
describes. -/
theorem C5_line_code_wrong_verb :
    (NewFormatService "api").Line ⟨2024, 5, 1, 12, 30, 45⟩ entryC5 =
      "[api] [01/05/2024 12:30:45] [ERROR] [%!s(int=404)] [caller.go:10] : not found\n" ∧
    (NewFormatService "api").Line ⟨2024, 5, 1, 12, 30, 45⟩ entryC5 ≠
      "[api] [01/05/2024 12:30:45] [ERROR] [404] [caller.go:10] : not found\n" := by
  exact ⟨by decide, by decide⟩

/-- C6: when the JSON serialisation fails, `JSONLine` returns the inline
fallback error line, which is never the empty string — the record is not lost
at the formatting step. -/
theorem C6_jsonline_fallback_nonempty (fs : FormatService) (now : DateTime)
    (marshal : Except String String) (err : String) (h : marshal = .error err) :
    fs.JSONLine now marshal =
      "[VLoggo] > [" ++ fs.Client ++ "] [" ++ goDateStamp now ++
        "] [ERROR] : failed to serialize log > " ++ err ∧
    fs.JSONLine now marshal ≠ "" := by
  subst h
  refine ⟨rfl, fun hc => ?_⟩
  have hlen := congrArg String.length hc
  simp only [FormatService.JSONLine, String.length_append] at hlen
  have h1 : ("[VLoggo] > [" : String).length = 12 := rfl
  have h0 : ("" : String).length = 0 := rfl
  omega

/-- C6 witness: the theorem applied to a concrete failing marshal result. -/
theorem C6_jsonline_fallback_nonempty_witness :
    (Except.error "boom" : Except String String) = Except.error "boom" ∧
    (NewFormatService "api").JSONLine ⟨2024, 5, 1, 12, 30, 45⟩ (.error "boom") ≠ "" :=
  ⟨rfl, (C6_jsonline_fallback_nonempty (NewFormatService "api") ⟨2024, 5, 1, 12, 30, 45⟩
    (.error "boom") "boom" rfl).2⟩

/-- C7: a `Write` call on a manager that is not initialized acquires and
releases the lock, returns the "file service not initialized" error, performs
no rotation and no file operation, and leaves the state unchanged. -/
theorem C7_write_uninitialized (fs : FileService) (w : World) (line : String)
    (jsonLine : List String) (hmu : fs.muHeld = false) (hinit : fs.initialized = false) :
    writeLocked fs w line jsonLine =
      (.ret (fs, .error "file service not initialized", false), []) := by
  cases fs with
  | mk cfg txtF jsonF day init mu =>
      simp only at hmu hinit
      subst hmu hinit
      simp [writeLocked, lockAcquire, lockRelease]

/-- C7 witness: the theorem applied to a concrete uninitialized manager. -/
theorem C7_write_uninitialized_witness :
    fsC7.muHeld = false ∧ fsC7.initialized = false ∧
    writeLocked fsC7 wBase "x\n" [] =
      (.ret (fsC7, .error "file service not initialized", false), []) :=
  ⟨rfl, rfl, C7_write_uninitialized fsC7 wBase "x\n" [] rfl rfl⟩

/-- Shared lemma for C2 and C3: on an initialized manager, `Write` acquires
`fs.mu` and then `verify` tries to acquire `fs.mu` again, so the call blocks
forever before performing any effect. -/
theorem writeLocked_blocked_of_initialized (fs : FileService) (w : World) (line : String)
    (jsonLine : List String) (hmu : fs.muHeld = false) (hinit : fs.initialized = true) :
    writeLocked fs w line jsonLine = (.blocked, []) := by
  simp [writeLocked, lockAcquire, hmu, hinit]

/-- C2: contrary to the single-lock claim, a `Write` call on an initialized
manager never completes: the lock taken at the start of `Write` is acquired a
second time inside `verify`, and the non-reentrant mutex self-deadlocks, so the
call blocks with no effect performed. -/
theorem C2_write_self_deadlock (fs : FileService) (w : World) (line : String)
    (jsonLine : List String) (hmu : fs.muHeld = false) (hinit : fs.initialized = true) :
    writeLocked fs w line jsonLine = (.blocked, []) :=
  writeLocked_blocked_of_initialized fs w line jsonLine hmu hinit

/-- C2 witness: the theorem applied to a concrete initialized manager. -/
theorem C2_write_self_deadlock_witness :
    fsInit.muHeld = false ∧ fsInit.initialized = true ∧
    writeLocked fsInit wBase "x\n" [] = (.blocked, []) :=
  ⟨rfl, rfl, C2_write_self_deadlock fsInit wBase "x\n" [] rfl rfl⟩

/-- C3: contrary to the one-rotation-per-boundary claim, a sequence of `Write`
calls on an initialized manager whose first call already sits past a day
boundary performs zero rotations: the first call blocks inside `verify` before
the day check, so no rotation ever occurs and no later call runs. -/
theorem C3_no_rotation_ever_occurs (fs : FileService) (w : World) (line : String)
    (jsonLine : List String) (rest : List WCall)
    (hmu : fs.muHeld = false) (hinit : fs.initialized = true)
    (_hday : w.today ≠ fs.currentDay) :
    runWrites fs ({ w := w, line := line, jsonLine := jsonLine } :: rest) = (.blocked, 0) := by
  unfold runWrites
  rw [writeLocked_blocked_of_initialized fs w line jsonLine hmu hinit]

/-- C3 witness: the theorem applied to a concrete boundary-crossing call. -/
theorem C3_no_rotation_ever_occurs_witness :
    fsInit.muHeld = false ∧ fsInit.initialized = true ∧ wDay2.today ≠ fsInit.currentDay ∧
    runWrites fsInit [{ w := wDay2, line := "x\n", jsonLine := [] }] = (.blocked, 0) :=
  ⟨rfl, rfl, by decide, C3_no_rotation_ever_occurs fsInit wDay2 "x\n" [] [] rfl rfl (by decide)⟩

/-- C8: with a negative keep count and at least one matching entry whose
metadata is readable, the guard `len(logFiles) > keep` passes and the slice
`logFiles[keep:]` is taken at a negative index, so the sweep panics instead of
returning an error result. -/
theorem C8_negative_keep_panics (fs : FileService) (w : World) (files : List DirEntry)
    (e : DirEntry) (hk : fs.cfg.KeepTxt < 0)
    (hread : w.readDir fs.cfg.DirTxt = .ok files)
    (he : e ∈ files) (hext : goExt e.name = ".txt") (hinfo : e.infoOk = true) :
    rotateTxt fs w = (.panicked, [Eff.readDir fs.cfg.DirTxt]) := by
  have hmem : e ∈ files.filter (fun x => goExt x.name == ".txt" && x.infoOk) := by
    simp [List.mem_filter, he, hext, hinfo]
  have hlen : 0 < (collectLogFiles fs.cfg.DirTxt ".txt" files).length := by
    have h0 : 0 < (files.filter (fun x => goExt x.name == ".txt" && x.infoOk)).length :=
      List.length_pos.mpr (List.ne_nil_of_mem hmem)
    simpa [collectLogFiles] using h0
  have hlen2 : 0 < (sortFiles (collectLogFiles fs.cfg.DirTxt ".txt" files)).length := by
    simpa [sortFiles, List.length_insertionSort] using hlen
  have hcond :
      ((sortFiles (collectLogFiles fs.cfg.DirTxt ".txt" files)).length : Int) >
        fs.cfg.KeepTxt := by
    omega
  have hneg : ¬ (0 ≤ fs.cfg.KeepTxt) := not_le.mpr hk
  rw [rotateTxt, hread]
  simp [filesToDelete, hcond, hneg]

/-- C8 witness: the theorem applied to a concrete negative keep count and a
one-file directory. -/
theorem C8_negative_keep_panics_witness :
    fsC8.cfg.KeepTxt < 0 ∧ goExt "a.txt" = ".txt" ∧
    rotateTxt fsC8 wC8 = (.panicked, [Eff.readDir "t"]) :=
  ⟨by decide, by decide,
    C8_negative_keep_panics fsC8 wC8 [{ name := "a.txt", infoOk := true, mtime := 5 }]
      { name := "a.txt", infoOk := true, mtime := 5 } (by decide) rfl
      (List.mem_singleton.mpr rfl) (by decide) rfl⟩

/-- C9: `Clone` for a registered base and a not-yet-registered client name
returns an instance whose `file` and `format` pointers are nil, so every
subsequent logging call — `log` itself and all five level helpers —
dereferences a nil pointer and panics before writing anything. -/
theorem C9_clone_nil_services (reg : Registry) (base client : String)
    (opts : List (Config → Config)) (baseInst : VLoggo)
    (hbase : List.lookup base reg = some baseInst)
    (hclient : List.lookup client reg = none) :
    ∃ inst : VLoggo,
      (Clone reg base client opts).1 = some inst ∧
      inst.file = none ∧ inst.format = none ∧
      (∀ w level code message caller marshal,
        inst.logM w level code message caller marshal = .nilPanic) ∧
      (∀ w code message caller marshal,
        inst.Info w code message caller marshal = .nilPanic ∧
        inst.Warn w code message caller marshal = .nilPanic ∧
        inst.Debug w code message caller marshal = .nilPanic ∧
        inst.Error w code message caller marshal = .nilPanic ∧
        inst.Fatal w code message caller marshal = .nilPanic) := by
  refine ⟨{ cfg := opts.foldl (fun c o => o c) { baseInst.cfg with Client := client },
            file := none, format := none }, ?_, rfl, rfl,
          fun w level code message caller marshal => rfl,
          fun w code message caller marshal => ⟨rfl, rfl, rfl, rfl, rfl⟩⟩
  simp [Clone, hbase, hclient]

/-- C9 witness: the theorem applied to a concrete registry, base and fresh
client name. -/
theorem C9_clone_nil_services_witness :
    List.lookup "api" [("api", baseInstW)] = some baseInstW ∧
    ∃ inst : VLoggo,
      (Clone [("api", baseInstW)] "api" "copy" []).1 = some inst ∧
      inst.file = none ∧ inst.format = none ∧
      (∀ w level code message caller marshal,
        inst.logM w level code message caller marshal = .nilPanic) ∧
      (∀ w code message caller marshal,
        inst.Info w code message caller marshal = .nilPanic ∧
        inst.Warn w code message caller marshal = .nilPanic ∧
        inst.Debug w code message caller marshal = .nilPanic ∧
        inst.Error w code message caller marshal = .nilPanic ∧
        inst.Fatal w code message caller marshal = .nilPanic) :=
  ⟨rfl, C9_clone_nil_services [("api", baseInstW)] "api" "copy" [] baseInstW rfl rfl⟩

/-- C1 counterexample: JSON output is enabled, a JSON line was supplied and the
text sink would fail, yet the `Write` call yields no error for any sink and
never attempts the JSON append: it blocks forever on the second acquisition of
`fs.mu` inside `verify`, before either append, so its effect trace is empty. -/
theorem C1_txt_failure_suppresses_json :
    fsInit.cfg.Json = true ∧
    wTxtFail.appendErr fsInit.txtFilename = some "disk full" ∧
    writeLocked fsInit wTxtFail "hello\n" ["jline\n"] = (.blocked, []) ∧
    Eff.append fsInit.jsonFilename "jline\n" ∉
      (writeLocked fsInit wTxtFail "hello\n" ["jline\n"]).2 := by
  exact ⟨rfl, by decide, by decide, by decide⟩

/-- C1 amended: a `Write` call on an initialized manager whose text sink would
fail — JSON output enabled and a JSON line supplied — never yields the
text-sink error and never attempts the JSON append: the call blocks forever in
`verify`'s second mutex acquisition before either append, leaving an empty
effect trace. -/
theorem C1_txt_failure_reaches_no_append (fs : FileService) (w : World)
    (line : String) (jsonLine : List String) (e : String)
    (hmu : fs.muHeld = false) (hinit : fs.initialized = true)
    (_hfail : w.appendErr fs.txtFilename = some e)
    (_hjson : fs.cfg.Json = true) (_hsupplied : jsonLine ≠ []) :
    writeLocked fs w line jsonLine = (.blocked, []) ∧
    (∀ f c, Eff.append f c ∉ (writeLocked fs w line jsonLine).2) := by
  have hb := writeLocked_blocked_of_initialized fs w line jsonLine hmu hinit
  refine ⟨hb, fun f c => ?_⟩
  rw [hb]
  exact List.not_mem_nil _

/-- C1 witness: the amended theorem applied to the concrete failing-text-sink
fixture. -/
theorem C1_txt_failure_reaches_no_append_witness :
    fsInit.muHeld = false ∧ fsInit.initialized = true ∧
    wTxtFail.appendErr fsInit.txtFilename = some "disk full" ∧
    fsInit.cfg.Json = true ∧ (["jline\n"] : List String) ≠ [] ∧
    (writeLocked fsInit wTxtFail "hello\n" ["jline\n"] = (.blocked, []) ∧
      (∀ f c, Eff.append f c ∉ (writeLocked fsInit wTxtFail "hello\n" ["jline\n"]).2)) :=
  ⟨rfl, rfl, by decide, rfl, by decide,
    C1_txt_failure_reaches_no_append fsInit wTxtFail "hello\n" ["jline\n"] "disk full"
      rfl rfl (by decide) rfl (by decide)⟩

/-- With a non-negative keep bound the deletion set of a sweep is the sorted
list with its first `keep` entries removed (empty when the list is short), and
no panic occurs. -/
theorem filesToDelete_nonneg (k : Int) (L : List FileInfo) (hk : 0 ≤ k) :
    filesToDelete k L = some (L.drop k.toNat) := by
  unfold filesToDelete
  by_cases h : ((L.length : Int) > k)
  · rw [if_pos h, if_pos ⟨hk, le_of_lt h⟩]
  · rw [if_neg h, List.drop_eq_nil_of_le (by omega)]

/-- Mapping commutes with filtering through the mapped function. -/
theorem map_filter_through {α β : Type} (g : α → β) (q : β → Bool) (l : List α) :
    (l.filter (fun a => q (g a))).map g = (l.map g).filter q := by
  induction l with
  | nil => rfl
  | cons a t ih => by_cases h : q (g a) <;> simp [h, ih]

/-- When every matching entry is readable, the collection loop of the sweep
keeps exactly the matching entries. -/
theorem collectLogFiles_of_all_readable (dir ext : String) (files : List DirEntry)
    (hinfo : ∀ e ∈ files, goExt e.name = ext → e.infoOk = true) :
    collectLogFiles dir ext files = (matchingEntries ext files).map (entryFileInfo dir) := by
  unfold collectLogFiles matchingEntries
  have hpq : ∀ e ∈ files, (goExt e.name == ext && e.infoOk) = (goExt e.name == ext) := by
    intro e he
    by_cases hx : goExt e.name = ext
    · simp [hx, hinfo e he hx]
    · simp [hx]
  rw [List.filter_congr hpq]
  rfl

/-- C4 amended: a sweep with a non-negative keep count `k` over a directory
whose matching entries are all readable returns without error after attempting
to delete exactly the entries beyond the `k` newest; if moreover every
attempted deletion succeeds (and matching paths are distinct), the surviving
matching files are, up to order, the `k` most-recently-modified ones, so at
most `k` remain. -/
theorem C4_sweep_retention_bound (fs : FileService) (w : World) (dir : String)
    (files : List DirEntry) (k : Int)
    (hdir : fs.cfg.DirTxt = dir) (hkeep : fs.cfg.KeepTxt = k) (hk : 0 ≤ k)
    (hread : w.readDir dir = .ok files)
    (hinfo : ∀ e ∈ files, goExt e.name = ".txt" → e.infoOk = true)
    (hrm : ∀ p, w.rmErr p = none)
    (hnodup : ((matchingEntries ".txt" files).map (fun e => pathJoin dir e.name)).Nodup) :
    rotateTxt fs w =
      (.ok (.ok ()),
        sweepTrace dir ((sortFiles (collectLogFiles dir ".txt" files)).drop k.toNat)) ∧
    List.Sorted mtimeGE (sortFiles (collectLogFiles dir ".txt" files)) ∧
    ((survivors dir ".txt" files w
        ((sortFiles (collectLogFiles dir ".txt" files)).drop k.toNat)).map
      (entryFileInfo dir)).Perm
      ((sortFiles (collectLogFiles dir ".txt" files)).take k.toNat) ∧
    ((survivors dir ".txt" files w
        ((sortFiles (collectLogFiles dir ".txt" files)).drop k.toNat)).length : Int) ≤ k := by
  subst hdir
  subst hkeep
  have hM := collectLogFiles_of_all_readable fs.cfg.DirTxt ".txt" files hinfo
  have h1 : rotateTxt fs w =
      (.ok (.ok ()),
        sweepTrace fs.cfg.DirTxt
          ((sortFiles (collectLogFiles fs.cfg.DirTxt ".txt" files)).drop
            fs.cfg.KeepTxt.toNat)) := by
    simp only [rotateTxt, hread, filesToDelete_nonneg fs.cfg.KeepTxt _ hk]
  have hsorted : List.Sorted mtimeGE (sortFiles (collectLogFiles fs.cfg.DirTxt ".txt" files)) :=
    List.sorted_insertionSort mtimeGE _
  refine ⟨h1, hsorted, ?_⟩
  set L := collectLogFiles fs.cfg.DirTxt ".txt" files with hLdef
  set S := sortFiles L with hSdef
  set n := fs.cfg.KeepTxt.toNat with hndef
  set dp := deletedPaths w (S.drop n) with hdpdef
  have hperm : S.Perm L := List.perm_insertionSort mtimeGE L
  have hpathsL : (L.map FileInfo.path).Nodup := by
    rw [hM, List.map_map]
    exact hnodup
  have hpathsS : (S.map FileInfo.path).Nodup :=
    ((hperm.map FileInfo.path).symm).nodup hpathsL
  have hSdecomp : S.take n ++ S.drop n = S := List.take_append_drop n S
  have hnd2 : ((S.take n).map FileInfo.path ++ (S.drop n).map FileInfo.path).Nodup := by
    rw [← List.map_append, hSdecomp]
    exact hpathsS
  have hdisjoint := (List.nodup_append.mp hnd2).2.2
  have hdp : dp = (S.drop n).map FileInfo.path := by
    rw [hdpdef]
    unfold deletedPaths
    rw [List.filter_eq_self.mpr (fun f _ => by simp [hrm])]
  have hdropnil : (S.drop n).filter (keptFile dp) = [] := by
    rw [List.filter_eq_nil_iff]
    intro f hf
    have hmem : f.path ∈ dp := by
      rw [hdp]
      exact List.mem_map_of_mem FileInfo.path hf
    simp [keptFile, hmem]
  have htakeall : (S.take n).filter (keptFile dp) = S.take n := by
    rw [List.filter_eq_self]
    intro f hf
    have hnotmem : f.path ∉ dp := by
      rw [hdp]
      exact fun hmem => hdisjoint (List.mem_map_of_mem FileInfo.path hf) hmem
    simp [keptFile, hnotmem]
  have hfilters : S.filter (keptFile dp) = S.take n := by
    have hcong : S.filter (keptFile dp) = (S.take n ++ S.drop n).filter (keptFile dp) :=
      congrArg _ hSdecomp.symm
    rw [hcong, List.filter_append, hdropnil, htakeall, List.append_nil]
  have hsurvmap :
      (survivors fs.cfg.DirTxt ".txt" files w (S.drop n)).map (entryFileInfo fs.cfg.DirTxt) =
        L.filter (keptFile dp) := by
    unfold survivors
    rw [← hdpdef,
      map_filter_through (entryFileInfo fs.cfg.DirTxt) (keptFile dp) (matchingEntries ".txt" files),
      ← hM]
  have hpermfinal :
      ((survivors fs.cfg.DirTxt ".txt" files w (S.drop n)).map
        (entryFileInfo fs.cfg.DirTxt)).Perm (S.take n) := by
    rw [hsurvmap, ← hfilters]
    exact (hperm.symm).filter _
  refine ⟨hpermfinal, ?_⟩
  have hlen1 : (survivors fs.cfg.DirTxt ".txt" files w (S.drop n)).length = (S.take n).length := by
    rw [← List.length_map _ (entryFileInfo fs.cfg.DirTxt)]
    exact hpermfinal.length_eq
  have hlen2 : (S.take n).length ≤ n :=
    (List.length_take n S).le.trans (min_le_left n S.length)
  omega

/-- C4 counterexample: with keep count 1, one of the two deletions fails and is
only reported, the sweep still returns without error, yet afterwards two `.txt`
files remain — the at-most-`keep` bound of the claim fails as stated. -/
theorem C4_sweep_bound_counterexample :
    rotateTxt fsC4 wC4 =
      (.ok (.ok ()), [Eff.readDir "d", Eff.remove "d/b.txt", Eff.remove "d/c.txt"]) ∧
    fsC4.cfg.KeepTxt = 1 ∧
    (survivors "d" ".txt" [entA, entB, entC] wC4
      ((sortFiles (collectLogFiles "d" ".txt" [entA, entB, entC])).drop 1)).length = 2 := by
  exact ⟨by decide, rfl, by decide⟩

/-- C4 witness: the amended theorem applied to a concrete three-file directory
with keep count 1 and no failing deletion. -/
theorem C4_sweep_retention_bound_witness :
    0 ≤ (1 : Int) ∧ (∀ p, wC4ok.rmErr p = none) ∧
    (rotateTxt fsC4ok wC4ok =
      (.ok (.ok ()),
        sweepTrace "t"
          ((sortFiles (collectLogFiles "t" ".txt" [entA, entB, entC])).drop (1 : Int).toNat)) ∧
    List.Sorted mtimeGE (sortFiles (collectLogFiles "t" ".txt" [entA, entB, entC])) ∧
    ((survivors "t" ".txt" [entA, entB, entC] wC4ok
        ((sortFiles (collectLogFiles "t" ".txt" [entA, entB, entC])).drop (1 : Int).toNat)).map
      (entryFileInfo "t")).Perm
      ((sortFiles (collectLogFiles "t" ".txt" [entA, entB, entC])).take (1 : Int).toNat) ∧
    ((survivors "t" ".txt" [entA, entB, entC] wC4ok
        ((sortFiles (collectLogFiles "t" ".txt" [entA, entB, entC])).drop
          (1 : Int).toNat)).length : Int) ≤ 1) :=
  ⟨by decide, fun _ => rfl,
    C4_sweep_retention_bound fsC4ok wC4ok "t" [entA, entB, entC] 1 rfl rfl (by decide) rfl
      (by decide) (fun _ => rfl) (by decide)⟩
